import Mathlib

/-!
# Stack-Drift simulation core: a shallow embedding

This file embeds the simulation core of the Stack-Drift endless drifting
game (track generation, collision/progress tracking, physics integration,
scoring/fever state machine) and proves or refutes the specification's
claims about it.

Numbers: the source is JavaScript, all arithmetic over IEEE doubles.  We
embed numeric state over `ℚ` where the code only adds, multiplies and
compares (physics turn-rate, scoring, the per-frame game-logic decision),
and over `ℝ` where the code calls `sqrt`/`cos`/`sin`/`atan2` (track
geometry).  Comparisons of a `sqrt` against a non-negative bound are
embedded as the equivalent comparison of squares where this keeps a
definition computable; otherwise geometry lives in `ℝ`.

The per-frame game-logic step (`updateGameLogic`) reads the car's distance
to each nearby segment through `getDistanceFromSegment`.  In the `ℚ` layer
that geometric query is abstracted as an oracle `distOf : ℕ → ℚ` (and
`edgeOf` for the scoring distance-to-center); the claims about that step
are conditioned on those distances, so the oracle is exactly the
quantified hypothesis of the claims.
-/

namespace StackDrift

/-! ## Game constants (src constants.ts, `GAME_CONSTANTS`) -/

def BASE_SPEED : ℚ := 400
def MAX_SPEED : ℚ := 850
def MAX_TURN_STRENGTH : ℚ := 7/2          -- 3.5 rad/s
def TURN_RATE_ATTACK : ℚ := 19/5          -- 3.8
def TURN_RATE_RELEASE : ℚ := 7            -- 7.0
def TRACK_WIDTH_START : ℚ := 260
def TRACK_WIDTH_END : ℚ := 140
def TRACK_NARROWING_RATE : ℚ := 4/5       -- 0.8
def TRACK_GENERATION_BUFFER : ℕ := 8
def SEGMENT_LENGTH_STRAIGHT : ℚ := 300
def SEGMENT_RADIUS_TURN : ℚ := 300
def SEGMENT_RADIUS_MIN : ℚ := 200
def SEGMENT_RADIUS_MAX : ℚ := 350
def TIGHT_TURN_START_SCORE : ℚ := 1000
def TIGHT_TURN_FULL_SCORE : ℚ := 5000
def TURN_ANGLE_TIER1_MIN : ℚ := 75
def TURN_ANGLE_TIER1_MAX : ℚ := 90
def TURN_ANGLE_TIER2_MIN : ℚ := 60
def TURN_ANGLE_TIER2_MAX : ℚ := 105
def TURN_ANGLE_TIER3_MIN : ℚ := 60
def TURN_ANGLE_TIER3_MAX : ℚ := 120
def TURN_ANGLE_TIER2_SCORE : ℚ := 1000
def TURN_ANGLE_TIER3_SCORE : ℚ := 5000
def COLLISION_MARGIN : ℚ := 0
def PERFECT_EDGE_THRESHOLD : ℚ := 1/2     -- 0.5
def FEVER_GAUGE_GOOD : ℚ := 5
def FEVER_GAUGE_PERFECT : ℚ := 20
def FEVER_DURATION : ℚ := 5
def REVIVE_STRAIGHT_SEGMENTS : ℕ := 5
/-- `FEVER_THRESHOLD` appears only in the constants revision that ships the
combo-threshold fever; value from that revision. -/
def FEVER_THRESHOLD : ℕ := 8

/-! ## Car physics integrator: the turn-rate update (`updatePhysics`)

Source:
```
const targetTurnRate = inputDirRef.current * GAME_CONSTANTS.MAX_TURN_STRENGTH;
const isAttacking = inputDirRef.current !== 0;
let interpolationSpeed = isAttacking ? GAME_CONSTANTS.TURN_RATE_ATTACK
                                     : GAME_CONSTANTS.TURN_RATE_RELEASE;
const diff = targetTurnRate - currentTurnRateRef.current;
if (Math.abs(diff) > 0.01) {
    currentTurnRateRef.current += Math.sign(diff) * Math.min(Math.abs(diff), interpolationSpeed * dt);
} else {
    currentTurnRateRef.current = targetTurnRate;
}
...
car.heading += currentTurnRateRef.current * dt;
```
-/

/-- JS `Math.sign` on rationals. -/
def qsign (x : ℚ) : ℚ := if x > 0 then 1 else if x < 0 then -1 else 0

/-- The interpolation speed selected by `updatePhysics` for a given steer
input (`inputDirRef.current`). -/
def interpolationSpeed (steer : ℤ) : ℚ :=
  if steer ≠ 0 then TURN_RATE_ATTACK else TURN_RATE_RELEASE

/-- One frame of the turn-rate pursuit in `updatePhysics`. -/
def turnRateStep (steer : ℤ) (cur : ℚ) (dt : ℚ) : ℚ :=
  let targetTurnRate : ℚ := (steer : ℚ) * MAX_TURN_STRENGTH
  let diff := targetTurnRate - cur
  if |diff| > 1/100 then
    cur + qsign diff * min |diff| (interpolationSpeed steer * dt)
  else
    targetTurnRate

/-- Heading update of `updatePhysics`: the heading integrates the *updated*
turn rate. -/
def headingStep (steer : ℤ) (cur heading dt : ℚ) : ℚ :=
  heading + turnRateStep steer cur dt * dt

/-- Iterated turn rate along a list of `(steer, dt)` frames, starting
from a given rate. -/
def turnRateTraj (frames : List (ℤ × ℚ)) (r0 : ℚ) : ℚ :=
  frames.foldl (fun r f => turnRateStep f.1 r f.2) r0

/-! Helper lemmas for the turn-rate step. -/

lemma turnRateStep_mem_uIcc (steer : ℤ) (cur dt : ℚ) (hdt : 0 ≤ dt) :
    turnRateStep steer cur dt ∈ Set.uIcc cur ((steer : ℚ) * MAX_TURN_STRENGTH) := by
  unfold turnRateStep
  set tgt := (steer : ℚ) * MAX_TURN_STRENGTH with htgt
  set diff := tgt - cur with hdiff
  have hspeed : 0 ≤ interpolationSpeed steer * dt := by
    have : (0:ℚ) ≤ interpolationSpeed steer := by
      unfold interpolationSpeed TURN_RATE_ATTACK TURN_RATE_RELEASE
      split <;> norm_num
    positivity
  by_cases h : |diff| > 1/100
  · simp only [h, if_true]
    rcases lt_trichotomy diff 0 with hd | hd | hd
    · have hs : qsign diff = -1 := by unfold qsign; simp [not_lt.mpr hd.le, hd]
      rw [hs]
      have hmin1 : min |diff| (interpolationSpeed steer * dt) ≤ |diff| := min_le_left _ _
      have hmin0 : 0 ≤ min |diff| (interpolationSpeed steer * dt) :=
        le_min (abs_nonneg _) hspeed
      have habs : |diff| = -diff := abs_of_neg hd
      rw [Set.mem_uIcc]
      right
      constructor
      · nlinarith [hmin1, habs]
      · nlinarith [hmin0]
    · exact absurd h (by rw [hd]; norm_num)
    · have hs : qsign diff = 1 := by unfold qsign; simp [hd]
      rw [hs]
      have hmin1 : min |diff| (interpolationSpeed steer * dt) ≤ |diff| := min_le_left _ _
      have hmin0 : 0 ≤ min |diff| (interpolationSpeed steer * dt) :=
        le_min (abs_nonneg _) hspeed
      have habs : |diff| = diff := abs_of_pos hd
      rw [Set.mem_uIcc]
      left
      constructor
      · nlinarith [hmin0]
      · nlinarith [hmin1, habs]
  · simp only [h, if_false]
    exact Set.right_mem_uIcc

lemma abs_turnRateStep_le (steer : ℤ) (cur dt : ℚ)
    (hsteer : steer = -1 ∨ steer = 0 ∨ steer = 1)
    (hdt : 0 ≤ dt) (hcur : |cur| ≤ MAX_TURN_STRENGTH) :
    |turnRateStep steer cur dt| ≤ MAX_TURN_STRENGTH := by
  have htgt : |(steer : ℚ) * MAX_TURN_STRENGTH| ≤ MAX_TURN_STRENGTH := by
    rcases hsteer with h | h | h <;> subst h <;>
      rw [abs_le] <;> constructor <;> norm_num [MAX_TURN_STRENGTH]
  have hmem := turnRateStep_mem_uIcc steer cur dt hdt
  rw [Set.mem_uIcc] at hmem
  rcases hmem with ⟨h1, h2⟩ | ⟨h1, h2⟩ <;>
  · rw [abs_le] at hcur htgt ⊢
    constructor <;> linarith [hcur.1, hcur.2, htgt.1, htgt.2]

/-- C6 counterexample: the claim says the approach rate while steering
(attack) is faster than the rate while returning to zero (release); in the
code `TURN_RATE_ATTACK = 3.8 < TURN_RATE_RELEASE = 7.0`, so with `dt = 0.1`
an attacking step from rate `0` toward target `3.5` advances only `0.38`,
while a release step from rate `3.5` toward `0` advances `0.7`. -/
theorem turn_rate_attack_slower_cex :
    turnRateStep 1 0 (1/10) - 0 = 19/50 ∧
    (7/2 : ℚ) - turnRateStep 0 (7/2) (1/10) = 7/10 ∧
    ¬ ((7/10 : ℚ) ≤ 19/50) ∧
    ¬ (interpolationSpeed 0 ≤ interpolationSpeed 1) := by
  refine ⟨?_, ?_, by norm_num, ?_⟩
  · unfold turnRateStep qsign interpolationSpeed MAX_TURN_STRENGTH TURN_RATE_ATTACK
    norm_num
    rw [show |(7:ℚ)/2| = 7/2 from abs_of_pos (by norm_num)]
    norm_num [min_def]
  · unfold turnRateStep qsign interpolationSpeed MAX_TURN_STRENGTH TURN_RATE_RELEASE
    norm_num
    rw [show |(7:ℚ)/2| = 7/2 from abs_of_pos (by norm_num)]
    norm_num [min_def]
  · unfold interpolationSpeed TURN_RATE_ATTACK TURN_RATE_RELEASE
    norm_num

/-- C6 (amended): on every physics step the turn rate moves toward the
target `steerInput × MAX_TURN_STRENGTH` without overshooting it (the new
rate lies in the closed interval between the previous rate and the
target); the approach rate is asymmetric, but the attack rate (3.8, used
while `steerInput ≠ 0`) is *slower* than the release rate (7.0, used while
the rate returns to zero). -/
theorem turn_rate_no_overshoot (steer : ℤ) (cur dt : ℚ) (hdt : 0 ≤ dt) :
    turnRateStep steer cur dt ∈ Set.uIcc cur ((steer : ℚ) * MAX_TURN_STRENGTH) ∧
    (steer ≠ 0 → interpolationSpeed steer = TURN_RATE_ATTACK) ∧
    interpolationSpeed 0 = TURN_RATE_RELEASE ∧
    TURN_RATE_ATTACK < TURN_RATE_RELEASE := by
  refine ⟨turnRateStep_mem_uIcc steer cur dt hdt, ?_, ?_, ?_⟩
  · intro h; simp [interpolationSpeed, h]
  · simp [interpolationSpeed]
  · unfold TURN_RATE_ATTACK TURN_RATE_RELEASE; norm_num

/-- Witness for `turn_rate_no_overshoot` at `steer = 1`, `cur = 0`,
`dt = 1`. -/
theorem turn_rate_no_overshoot_witness :
    (0:ℚ) ≤ 1 ∧
    (turnRateStep 1 0 1 ∈ Set.uIcc (0:ℚ) ((1 : ℤ) * MAX_TURN_STRENGTH) ∧
     ((1:ℤ) ≠ 0 → interpolationSpeed 1 = TURN_RATE_ATTACK) ∧
     interpolationSpeed 0 = TURN_RATE_RELEASE ∧
     TURN_RATE_ATTACK < TURN_RATE_RELEASE) :=
  ⟨by norm_num, turn_rate_no_overshoot 1 0 1 (by norm_num)⟩

lemma abs_turnRateTraj_le (frames : List (ℤ × ℚ))
    (h : ∀ f ∈ frames, (f.1 = -1 ∨ f.1 = 0 ∨ f.1 = 1) ∧ 0 ≤ f.2) :
    ∀ r0, |r0| ≤ MAX_TURN_STRENGTH → |turnRateTraj frames r0| ≤ MAX_TURN_STRENGTH := by
  induction frames with
  | nil => intro r0 h0; simpa [turnRateTraj] using h0
  | cons f fs ih =>
      intro r0 h0
      have hf := h f (List.mem_cons_self f fs)
      have hstep := abs_turnRateStep_le f.1 r0 f.2 hf.1 hf.2 h0
      have := ih (fun g hg => h g (List.mem_cons_of_mem f hg)) (turnRateStep f.1 r0 f.2) hstep
      simpa [turnRateTraj, List.foldl_cons] using this

/-- C10: starting from a turn rate of 0, after every physics step the turn
rate magnitude stays within `MAX_TURN_STRENGTH` (each step moves the rate
toward a target in `{-MAX, 0, +MAX}` without passing it); consequently the
heading change in a single step of length `dt` is at most
`MAX_TURN_STRENGTH · dt`. -/
theorem turn_rate_magnitude_bounded (frames : List (ℤ × ℚ))
    (h : ∀ f ∈ frames, (f.1 = -1 ∨ f.1 = 0 ∨ f.1 = 1) ∧ 0 ≤ f.2) :
    |turnRateTraj frames 0| ≤ MAX_TURN_STRENGTH ∧
    (∀ steer cur heading dt, (steer = -1 ∨ steer = 0 ∨ steer = 1) → 0 ≤ dt →
      |cur| ≤ MAX_TURN_STRENGTH →
      |headingStep steer cur heading dt - heading| ≤ MAX_TURN_STRENGTH * dt) := by
  constructor
  · exact abs_turnRateTraj_le frames h 0 (by rw [abs_zero]; unfold MAX_TURN_STRENGTH; norm_num)
  · intro steer cur heading dt hsteer hdt hcur
    have hstep := abs_turnRateStep_le steer cur dt hsteer hdt hcur
    have : headingStep steer cur heading dt - heading = turnRateStep steer cur dt * dt := by
      unfold headingStep; ring
    rw [this, abs_mul, abs_of_nonneg hdt]
    exact mul_le_mul_of_nonneg_right hstep hdt

/-- Witness for `turn_rate_magnitude_bounded` on a concrete two-frame
input sequence. -/
theorem turn_rate_magnitude_bounded_witness :
    (∀ f ∈ [((1:ℤ), (1:ℚ)), ((-1:ℤ), (2:ℚ))],
        (f.1 = -1 ∨ f.1 = 0 ∨ f.1 = 1) ∧ 0 ≤ f.2) ∧
    (|turnRateTraj [((1:ℤ), (1:ℚ)), ((-1:ℤ), (2:ℚ))] 0| ≤ MAX_TURN_STRENGTH ∧
     (∀ steer cur heading dt, (steer = -1 ∨ steer = 0 ∨ steer = 1) → 0 ≤ dt →
       |cur| ≤ MAX_TURN_STRENGTH →
       |headingStep steer cur heading dt - heading| ≤ MAX_TURN_STRENGTH * dt)) :=
  ⟨by decide,
   turn_rate_magnitude_bounded [((1:ℤ), (1:ℚ)), ((-1:ℤ), (2:ℚ))] (by decide)⟩

/-! ## Scoring & per-frame game logic (`evaluateSegmentScore`, `updateGameLogic`)

The geometric inputs of `updateGameLogic` — the car's distance to segment
`i`'s centerline (`getDistanceFromSegment`) and the distance to segment
`i`'s geometric center used for grading — are abstracted as oracles
`distOf, edgeOf : ℕ → ℚ`; everything else (relevance window, grace
window, crash decision, progress/scoring update, track growth, fever
countdown) is embedded from the source.  The purely visual outputs
(`currentDistRef`, `currentWidthRef`, `currentRatioRef`, floating text)
feed only the excluded rendering layer and are omitted. -/

inductive SegKind where
  | STRAIGHT | TURN_LEFT | TURN_RIGHT
deriving DecidableEq, Repr

inductive Quality where
  | PERFECT | GOOD | MISS | NONE
deriving DecidableEq, Repr

/-- The fields of a track segment that `updateGameLogic` reads once the
geometric queries are abstracted as oracles. -/
structure SegL where
  kind : SegKind
  width : ℚ
deriving DecidableEq, Repr

def defaultSegL : SegL := ⟨SegKind.STRAIGHT, 0⟩

/-- `GameScore` of the engine revision under `src/` (no `feverGauge`
field; fever is combo-triggered there). -/
structure ScoreL where
  score : ℚ
  combo : ℕ
  coins : ℤ
  lastQuality : Quality
  fever : Bool
  feverTimer : ℚ
deriving DecidableEq, Repr

/-- Combo-tier multiplier of `evaluateSegmentScore`; the combo has already
been incremented when it is read. -/
def comboMultiplier (combo : ℕ) : ℚ :=
  if 15 ≤ combo then 4 else if 10 ≤ combo then 3 else if 5 ≤ combo then 2 else 1

/-- `evaluateSegmentScore(seg, edgeRatio)` acting on the score state. -/
def evaluateSegmentScore (seg : SegL) (edgeRatio : ℚ) (s : ScoreL) : ScoreL :=
  match seg.kind with
  | SegKind.STRAIGHT => { s with score := s.score + 10 }
  | _ =>
    let quality := if PERFECT_EDGE_THRESHOLD < edgeRatio then Quality.PERFECT else Quality.GOOD
    let combo := s.combo + 1
    let multiplier := comboMultiplier combo
    let baseScore : ℚ := 100
    let points := if quality = Quality.PERFECT then baseScore * multiplier else baseScore
    let s' : ScoreL :=
      { s with score := s.score + points, coins := s.coins + ⌊points / 20⌋,
               lastQuality := quality, combo := combo }
    if quality = Quality.PERFECT ∧ FEVER_THRESHOLD ≤ combo ∧ s'.fever = false then
      { s' with fever := true, feverTimer := FEVER_DURATION }
    else s'

/-- Full game state as read/written by one `updateGameLogic` frame. -/
structure GState where
  track : List SegL
  idx : ℕ            -- `currentSegmentIndexRef`
  frames : ℕ         -- `framesRef`
  crashed : Bool     -- `car.isCrashed`
  score : ScoreL
deriving Repr

/-- One frame's outputs: the mutated state and the `onGameOver` emission,
if any, carrying the score snapshot at the moment of the call. -/
structure GStep where
  state : GState
  gameOver : Option ScoreL
deriving Repr

/-- The segment indices `updateGameLogic` actually examines this frame:
the scan range `[max(0, idx-10), min(len, idx+10))` filtered by the
relevance test `idx - 1 ≤ i ≤ idx + 3` (ℕ subtraction matches the JS
`Math.max(0, ·)` clamps). -/
def relevantIdxs (idx len : ℕ) : List ℕ :=
  (List.range' (idx - 10) (min len (idx + 10) - (idx - 10))).filter
    (fun i => decide (idx ≤ i + 1) && decide (i ≤ idx + 3))

def halfWidthAt (track : List SegL) (i : ℕ) : ℚ := (track.getD i defaultSegL).width / 2

/-- `limit = trackHalfWidth + GAME_CONSTANTS.COLLISION_MARGIN`. -/
def limitAt (track : List SegL) (i : ℕ) : ℚ := halfWidthAt track i + COLLISION_MARGIN

/-- The strictly-closest-segment scan (`closestSegIndex`/`closestSegDist`,
starting from `Infinity`; ties keep the earlier index). -/
def closestScan (distOf : ℕ → ℚ) (rel : List ℕ) : Option (ℕ × ℚ) :=
  rel.foldl (fun acc i =>
    match acc with
    | none => some (i, distOf i)
    | some (j, d) => if distOf i < d then some (i, distOf i) else some (j, d)) none

/-- The progress index after this frame (`closestSegIndex` when it has
advanced past `currentSegmentIndexRef`, otherwise unchanged; the JS
sentinel `closestSegIndex = -1` corresponds to the `none` branch). -/
def progressTarget (distOf : ℕ → ℚ) (st : GState) : ℕ :=
  match closestScan distOf (relevantIdxs st.idx st.track.length) with
  | some (j, _) => if st.idx < j then j else st.idx
  | none => st.idx

/-- The scoring pass over the completed segments
`[currentSegmentIndexRef, closestSegIndex)`, with
`edgeRatio = min(1, distToGeoCenter / halfWidth)`. -/
def scoreCompletions (track : List SegL) (edgeOf : ℕ → ℚ) (is : List ℕ)
    (s : ScoreL) : ScoreL :=
  is.foldl (fun s i =>
    let seg := track.getD i defaultSegL
    let edgeRatio := min 1 (edgeOf i / (seg.width / 2))
    evaluateSegmentScore seg edgeRatio s) s

/-- Score state right after the progress/scoring update of the frame —
the value `onGameOver` receives if the frame crashes. -/
def progressedScore (distOf edgeOf : ℕ → ℚ) (st : GState) : ScoreL :=
  scoreCompletions st.track edgeOf
    (List.range' st.idx (progressTarget distOf st - st.idx)) st.score

/-- `n` iterations of `track.push(generateSegment(last))`. -/
def appendN (g : List SegL → SegL) (t : List SegL) : ℕ → List SegL
  | 0 => t
  | n + 1 => appendN g (t ++ [g t]) n

/-- The generation-ahead while loop: each iteration appends exactly one
segment, so the loop body runs `idx + TRACK_GENERATION_BUFFER - length`
times. -/
def growTrack (g : List SegL → SegL) (t : List SegL) (target : ℕ) : List SegL :=
  appendN g t (target - t.length)

/-- One `updateGameLogic(dt)` frame.  `g` abstracts `generateSegment`
applied to the current track (used only by the generation-ahead loop). -/
def updateGameLogic (g : List SegL → SegL) (distOf edgeOf : ℕ → ℚ) (dt : ℚ)
    (st : GState) : GStep :=
  if st.track.length = 0 then ⟨st, none⟩
  else
    let rel := relevantIdxs st.idx st.track.length
    let isSafe := rel.any (fun i => decide (distOf i ≤ limitAt st.track i))
    let idx' := progressTarget distOf st
    let score' := progressedScore distOf edgeOf st
    let frames' := if st.frames < 10 then st.frames + 1 else st.frames
    let isSafe' := if st.frames < 10 then true else isSafe
    let crashed' := if isSafe' = false then true else st.crashed
    let over : Option ScoreL := if isSafe' = false then some score' else none
    let track' := growTrack g st.track (idx' + TRACK_GENERATION_BUFFER)
    let score'' :=
      if score'.fever then
        let t := score'.feverTimer - dt
        if t ≤ 0 then { score' with fever := false, feverTimer := t }
        else { score' with feverTimer := t }
      else score'
    ⟨⟨track', idx', frames', crashed', score''⟩, over⟩

lemma combo_le_evaluateSegmentScore (seg : SegL) (e : ℚ) (s : ScoreL) :
    s.combo ≤ (evaluateSegmentScore seg e s).combo := by
  unfold evaluateSegmentScore
  rcases seg with ⟨k, w⟩
  cases k <;> simp only
  · exact le_refl _
  all_goals (split <;> (try split) <;> simp)

lemma combo_le_scoreCompletions (track : List SegL) (edgeOf : ℕ → ℚ)
    (is : List ℕ) : ∀ s : ScoreL, s.combo ≤ (scoreCompletions track edgeOf is s).combo := by
  induction is with
  | nil => intro s; simp [scoreCompletions]
  | cons i is ih =>
      intro s
      calc s.combo ≤ _ := combo_le_evaluateSegmentScore _ _ s
        _ ≤ _ := by simpa [scoreCompletions] using ih _

lemma evaluateSegmentScore_turn_combo (seg : SegL) (e : ℚ) (s : ScoreL)
    (h : seg.kind ≠ SegKind.STRAIGHT) :
    (evaluateSegmentScore seg e s).combo = s.combo + 1 := by
  unfold evaluateSegmentScore
  rcases seg with ⟨k, w⟩
  cases k
  · exact absurd rfl h
  all_goals (simp only; split <;> (try split) <;> simp)

lemma evaluateSegmentScore_straight_combo (seg : SegL) (e : ℚ) (s : ScoreL)
    (h : seg.kind = SegKind.STRAIGHT) :
    (evaluateSegmentScore seg e s).combo = s.combo := by
  unfold evaluateSegmentScore
  rcases seg with ⟨k, w⟩
  cases k <;> simp_all

/-- C5: on a frame past the 10-frame post-spawn/post-revive grace window,
with `COLLISION_MARGIN = 0`: if the car's distance to the centerline of
every relevant segment (the window `progressIndex - 1 … progressIndex + 3`
clipped to the track) strictly exceeds that segment's half-width, the car
is marked crashed on this very frame and `onGameOver` fires with the score
snapshot as updated by this frame's segment completions; conversely, if
some relevant segment's distance is within its half-width, the car is not
crashed and no game-over is emitted. -/
theorem crash_exactness (g : List SegL → SegL) (distOf edgeOf : ℕ → ℚ) (dt : ℚ)
    (st : GState) (halive : st.crashed = false) (hlen : st.track.length ≠ 0)
    (hframes : 10 ≤ st.frames) :
    ((∀ i ∈ relevantIdxs st.idx st.track.length, halfWidthAt st.track i < distOf i) →
        (updateGameLogic g distOf edgeOf dt st).state.crashed = true ∧
        (updateGameLogic g distOf edgeOf dt st).gameOver
          = some (progressedScore distOf edgeOf st)) ∧
    ((∃ i ∈ relevantIdxs st.idx st.track.length, distOf i ≤ halfWidthAt st.track i) →
        (updateGameLogic g distOf edgeOf dt st).state.crashed = false ∧
        (updateGameLogic g distOf edgeOf dt st).gameOver = none) := by
  have hfr : ¬ st.frames < 10 := not_lt.mpr hframes
  have hlimit : ∀ i, limitAt st.track i = halfWidthAt st.track i := by
    intro i; unfold limitAt COLLISION_MARGIN; ring
  constructor
  · intro hall
    have hsafe : (relevantIdxs st.idx st.track.length).any
        (fun i => decide (distOf i ≤ limitAt st.track i)) = false := by
      rw [List.any_eq_false]
      intro i hi
      simp only [decide_eq_true_eq, not_le, hlimit]
      exact hall i hi
    simp only [updateGameLogic, if_neg hlen, hsafe, if_neg hfr]
    simp
  · rintro ⟨i, hi, hle⟩
    have hsafe : (relevantIdxs st.idx st.track.length).any
        (fun i => decide (distOf i ≤ limitAt st.track i)) = true := by
      rw [List.any_eq_true]
      exact ⟨i, hi, by simp only [decide_eq_true_eq, hlimit]; exact hle⟩
    simp only [updateGameLogic, if_neg hlen, hsafe, if_neg hfr]
    simp [halive]

/-- Concrete frame state used by the `crash_exactness` witness. -/
def wTrack : List SegL := List.replicate 12 ⟨SegKind.STRAIGHT, 260⟩

def wStateC5 : GState := ⟨wTrack, 2, 10, false, ⟨0, 0, 0, Quality.NONE, false, 0⟩⟩

def wDist : ℕ → ℚ := fun _ => 200

def wEdge : ℕ → ℚ := fun _ => 0

def wGen : List SegL → SegL := fun _ => defaultSegL

/-- Witness for `crash_exactness` on a concrete 12-segment track. -/
theorem crash_exactness_witness :
    (wStateC5.crashed = false ∧ wStateC5.track.length ≠ 0 ∧ 10 ≤ wStateC5.frames) ∧
    (((∀ i ∈ relevantIdxs wStateC5.idx wStateC5.track.length,
          halfWidthAt wStateC5.track i < wDist i) →
        (updateGameLogic wGen wDist wEdge (1/60) wStateC5).state.crashed = true ∧
        (updateGameLogic wGen wDist wEdge (1/60) wStateC5).gameOver
          = some (progressedScore wDist wEdge wStateC5)) ∧
     ((∃ i ∈ relevantIdxs wStateC5.idx wStateC5.track.length,
          wDist i ≤ halfWidthAt wStateC5.track i) →
        (updateGameLogic wGen wDist wEdge (1/60) wStateC5).state.crashed = false ∧
        (updateGameLogic wGen wDist wEdge (1/60) wStateC5).gameOver = none)) :=
  ⟨⟨rfl, by decide, by decide⟩,
   crash_exactness wGen wDist wEdge (1/60) wStateC5 rfl (by decide) (by decide)⟩

/-- C9: while alive, `combo` never decreases across a frame; it is
incremented by exactly one on every turn completion, left unchanged by
straight completions, and the `Fever → Normal` transition taken when the
fever timer runs out leaves `combo` unchanged on a frame without segment
completions. -/
theorem combo_monotonic (g : List SegL → SegL) (distOf edgeOf : ℕ → ℚ) (dt : ℚ)
    (st : GState) (hlen : st.track.length ≠ 0) :
    st.score.combo ≤ (updateGameLogic g distOf edgeOf dt st).state.score.combo ∧
    (∀ seg e s, seg.kind ≠ SegKind.STRAIGHT →
        (evaluateSegmentScore seg e s).combo = s.combo + 1) ∧
    (∀ seg e s, seg.kind = SegKind.STRAIGHT →
        (evaluateSegmentScore seg e s).combo = s.combo) ∧
    (progressTarget distOf st = st.idx →
      st.score.fever = true → st.score.feverTimer - dt ≤ 0 →
      (updateGameLogic g distOf edgeOf dt st).state.score.fever = false ∧
      (updateGameLogic g distOf edgeOf dt st).state.score.combo = st.score.combo) := by
  have hmono : st.score.combo ≤ (progressedScore distOf edgeOf st).combo :=
    combo_le_scoreCompletions _ _ _ _
  refine ⟨?_, fun seg e s h => evaluateSegmentScore_turn_combo seg e s h,
          fun seg e s h => evaluateSegmentScore_straight_combo seg e s h, ?_⟩
  · simp only [updateGameLogic, if_neg hlen]
    split
    · split <;> simpa using hmono
    · simpa using hmono
  · intro hidx hfev htimer
    have hps : progressedScore distOf edgeOf st = st.score := by
      unfold progressedScore
      rw [hidx]
      simp [scoreCompletions]
    simp only [updateGameLogic, if_neg hlen, hps, hfev, if_true, if_pos htimer]
    simp

/-- Concrete in-fever frame state with an expiring timer, for the
`combo_monotonic` witness. -/
def wStateC9 : GState := ⟨wTrack, 2, 10, false, ⟨500, 3, 0, Quality.GOOD, true, 1/100⟩⟩

def wDist9 : ℕ → ℚ := fun _ => 10

/-- Witness for `combo_monotonic` on a concrete state in fever with an
expiring timer. -/
theorem combo_monotonic_witness :
    (wStateC9.track.length ≠ 0) ∧
    (wStateC9.score.combo ≤
        (updateGameLogic wGen wDist9 wEdge (1/60) wStateC9).state.score.combo ∧
     (∀ seg e s, seg.kind ≠ SegKind.STRAIGHT →
        (evaluateSegmentScore seg e s).combo = s.combo + 1) ∧
     (∀ seg e s, seg.kind = SegKind.STRAIGHT →
        (evaluateSegmentScore seg e s).combo = s.combo) ∧
     (progressTarget wDist9 wStateC9 = wStateC9.idx →
       wStateC9.score.fever = true → wStateC9.score.feverTimer - 1/60 ≤ 0 →
       (updateGameLogic wGen wDist9 wEdge (1/60) wStateC9).state.score.fever = false ∧
       (updateGameLogic wGen wDist9 wEdge (1/60) wStateC9).state.score.combo
         = wStateC9.score.combo)) :=
  ⟨by decide, combo_monotonic wGen wDist9 wEdge (1/60) wStateC9 (by decide)⟩

/-! ## The gauge-based fever scoring machine (modelled from the spec)

The current engine revision — the one consuming `feverGauge` from
`GameScore` (types.ts), the `FEVER_GAUGE_GOOD` / `FEVER_GAUGE_PERFECT` /
`FEVER_DURATION` constants and driving the HUD gauge — is not present
under `src/`; only its declarations, constants and consumers are.  The
definitions below are modelled from the spec (§4.5 and the data model). -/

/-- `GameScore` of the current engine (types.ts): includes `feverGauge`. -/
structure ScoreG where
  score : ℚ
  combo : ℕ
  coins : ℤ
  lastQuality : Quality
  fever : Bool
  feverTimer : ℚ
  feverGauge : ℚ
deriving DecidableEq, Repr

/-- Gauge increment per grade: `FEVER_GAUGE_PERFECT` for a Perfect,
`FEVER_GAUGE_GOOD` for a Good. -/
def gaugeInc (q : Quality) : ℚ :=
  if q = Quality.PERFECT then FEVER_GAUGE_PERFECT else FEVER_GAUGE_GOOD

/-- Modelled from the spec: turn-completion scoring of the missing
gauge-based engine revision.  Grade from `edgeRatio` against
`PERFECT_EDGE_THRESHOLD`; `combo` increments unconditionally; a
combo-tiered multiplier scales a Perfect's base award (tier values from
the in-repo engine revision); fever doubles whichever award results; the
gauge accumulates only while not in fever, and on reaching 100 fever
starts with the gauge reset to 0 and `feverTimer = FEVER_DURATION`. -/
def evaluateTurnSpec (edgeRatio : ℚ) (s : ScoreG) : ScoreG :=
  let quality := if PERFECT_EDGE_THRESHOLD < edgeRatio then Quality.PERFECT else Quality.GOOD
  let combo := s.combo + 1
  let multiplier := comboMultiplier combo
  let base : ℚ := if quality = Quality.PERFECT then 100 * multiplier else 100
  let points := if s.fever then 2 * base else base
  let gauge := if s.fever then s.feverGauge else s.feverGauge + gaugeInc quality
  let s' : ScoreG :=
    { s with score := s.score + points, coins := s.coins + ⌊points / 20⌋,
             lastQuality := quality, combo := combo, feverGauge := gauge }
  if s.fever = false ∧ 100 ≤ gauge then
    { s' with fever := true, feverGauge := 0, feverTimer := FEVER_DURATION }
  else s'

/-- Modelled from the spec: straight-segment completion — a flat score
award, doubled while in fever; no combo, grade or gauge effect. -/
def evaluateStraightSpec (s : ScoreG) : ScoreG :=
  { s with score := s.score + (if s.fever then 2 * 10 else 10) }

/-- `n` consecutive turn completions at a fixed edge ratio. -/
def iterTurns (e : ℚ) : ℕ → ScoreG → ScoreG
  | 0, s => s
  | n + 1, s => iterTurns e n (evaluateTurnSpec e s)

/-- Fresh score state at game start. -/
def freshScore : ScoreG := ⟨0, 0, 0, Quality.NONE, false, 0, 0⟩

/-- C1: while not in fever, a turn completion transitions the machine to
fever exactly when the gauge reaches 100; the transition resets the gauge
to 0 and sets `feverTimer = FEVER_DURATION`.  In particular, from a fresh
state with `FEVER_GAUGE_PERFECT = 20`, a run of consecutive Perfect turns
leaves the machine in Normal after 4 of them (gauge 80) and triggers fever
exactly at the 5th (gauge crosses 100 = 5 × 20). -/
theorem fever_gauge_transition (s : ScoreG) (e : ℚ) (hnf : s.fever = false) :
    ((evaluateTurnSpec e s).fever = true ↔
        100 ≤ s.feverGauge +
          gaugeInc (if PERFECT_EDGE_THRESHOLD < e then Quality.PERFECT else Quality.GOOD)) ∧
    ((evaluateTurnSpec e s).fever = true →
        (evaluateTurnSpec e s).feverGauge = 0 ∧
        (evaluateTurnSpec e s).feverTimer = FEVER_DURATION) ∧
    (iterTurns 1 4 freshScore).fever = false ∧
    (iterTurns 1 4 freshScore).feverGauge = 80 ∧
    (iterTurns 1 5 freshScore).fever = true ∧
    (iterTurns 1 5 freshScore).feverGauge = 0 ∧
    (iterTurns 1 5 freshScore).feverTimer = FEVER_DURATION := by
  refine ⟨?_, ?_, ?_, ?_, ?_, ?_, ?_⟩
  · by_cases hq : PERFECT_EDGE_THRESHOLD < e <;>
      by_cases hg : (100:ℚ) ≤ s.feverGauge +
        gaugeInc (if PERFECT_EDGE_THRESHOLD < e then Quality.PERFECT else Quality.GOOD) <;>
      simp only [hq, if_true, if_false] at hg ⊢ <;>
      simp [evaluateTurnSpec, hnf, hq, hg]
  · intro htrig
    by_cases hq : PERFECT_EDGE_THRESHOLD < e <;>
      by_cases hg : (100:ℚ) ≤ s.feverGauge +
        gaugeInc (if PERFECT_EDGE_THRESHOLD < e then Quality.PERFECT else Quality.GOOD) <;>
      simp only [hq, if_true, if_false] at hg <;>
      simp [evaluateTurnSpec, hnf, hq, hg] at htrig ⊢
  all_goals
    norm_num [iterTurns, evaluateTurnSpec, freshScore, comboMultiplier, gaugeInc,
      PERFECT_EDGE_THRESHOLD, FEVER_GAUGE_PERFECT, FEVER_GAUGE_GOOD, FEVER_DURATION]

/-- Witness for `fever_gauge_transition` at the fresh state and a Perfect
edge ratio. -/
theorem fever_gauge_transition_witness :
    freshScore.fever = false ∧
    (((evaluateTurnSpec 1 freshScore).fever = true ↔
        100 ≤ freshScore.feverGauge +
          gaugeInc (if PERFECT_EDGE_THRESHOLD < 1 then Quality.PERFECT else Quality.GOOD)) ∧
     ((evaluateTurnSpec 1 freshScore).fever = true →
        (evaluateTurnSpec 1 freshScore).feverGauge = 0 ∧
        (evaluateTurnSpec 1 freshScore).feverTimer = FEVER_DURATION) ∧
     (iterTurns 1 4 freshScore).fever = false ∧
     (iterTurns 1 4 freshScore).feverGauge = 80 ∧
     (iterTurns 1 5 freshScore).fever = true ∧
     (iterTurns 1 5 freshScore).feverGauge = 0 ∧
     (iterTurns 1 5 freshScore).feverTimer = FEVER_DURATION) :=
  ⟨rfl, fever_gauge_transition freshScore 1 rfl⟩

/-- C2: a completion processed while fever is active awards exactly twice
what the same completion would award outside fever — for the flat
Straight award and for the turn award (Perfect with its combo-tier
multiplier, or the flat Good base) alike. -/
theorem fever_doubles_awards (s : ScoreG) (e : ℚ) (hf : s.fever = true) :
    (evaluateStraightSpec s).score - s.score
      = 2 * ((evaluateStraightSpec { s with fever := false }).score - s.score) ∧
    (evaluateTurnSpec e s).score - s.score
      = 2 * ((evaluateTurnSpec e { s with fever := false }).score - s.score) := by
  have hscore_ite : ∀ (c : Prop) (inst : Decidable c) (a b : ScoreG),
      (ite c a b).score = ite c a.score b.score := by
    intro c inst a b; split <;> rfl
  constructor
  · unfold evaluateStraightSpec
    simp [hf]
  · unfold evaluateTurnSpec
    by_cases hq : PERFECT_EDGE_THRESHOLD < e <;>
      simp only [hf, hq, if_true, if_false, hscore_ite] <;>
      simp

/-- Witness for `fever_doubles_awards` at a concrete in-fever state. -/
theorem fever_doubles_awards_witness :
    (⟨300, 6, 10, Quality.GOOD, true, 3, 0⟩ : ScoreG).fever = true ∧
    ((evaluateStraightSpec ⟨300, 6, 10, Quality.GOOD, true, 3, 0⟩).score - 300
      = 2 * ((evaluateStraightSpec { (⟨300, 6, 10, Quality.GOOD, true, 3, 0⟩ : ScoreG) with
                fever := false }).score - 300) ∧
     (evaluateTurnSpec 1 ⟨300, 6, 10, Quality.GOOD, true, 3, 0⟩).score - 300
      = 2 * ((evaluateTurnSpec 1 { (⟨300, 6, 10, Quality.GOOD, true, 3, 0⟩ : ScoreG) with
                fever := false }).score - 300)) :=
  ⟨rfl, fever_doubles_awards ⟨300, 6, 10, Quality.GOOD, true, 3, 0⟩ 1 rfl⟩

/-! ## Track geometry and the segment generator (ℝ)

These embed `utils/math.ts` and the generation half of `GameEngine.tsx`:
`createInitialSegment`, `createSegmentData`, `getDistanceFromSegment`,
`getSegmentSamplePoints`, `isSegmentSafe`, `getRecentTurnBias`,
`getCumulativeAngleChange`, `generateSegment`.  Real comparisons are not
decidable, so the generator's branching uses classical choice; the
numeric constants are the `ℚ` constants above coerced into `ℝ`. -/

open scoped Classical

open Real in
/-- `TrackSegment` (types.ts). -/
structure TrackSegment where
  id : ℤ
  type : SegKind
  length : ℝ
  curvature : ℝ
  startAngle : ℝ
  endAngle : ℝ
  startX : ℝ
  startY : ℝ
  endX : ℝ
  endY : ℝ
  width : ℝ

/-- `distance` (utils/math.ts). -/
noncomputable def dist2 (x1 y1 x2 y2 : ℝ) : ℝ :=
  Real.sqrt ((x2 - x1) ^ 2 + (y2 - y1) ^ 2)

/-- `closestPointOnLine` (utils/math.ts): the clamped projection of
`(px, py)` onto the segment from `(lx1, ly1)` to `(lx2, ly2)`. -/
noncomputable def closestPointOnLine (lx1 ly1 lx2 ly2 px py : ℝ) : ℝ × ℝ :=
  let dx := lx2 - lx1
  let dy := ly2 - ly1
  let t := ((px - lx1) * dx + (py - ly1) * dy) / (dx * dx + dy * dy)
  let tClamped := max 0 (min 1 t)
  (lx1 + tClamped * dx, ly1 + tClamped * dy)

/-- JS `Math.atan2 y x`, as the argument of the complex number `x + y·i`
(range `(-π, π]`, `atan2 0 0 = 0`). -/
noncomputable def atan2 (y x : ℝ) : ℝ := Complex.arg ⟨x, y⟩

/-- `normalizeAngle` (utils/math.ts): `atan2 (sin θ) (cos θ)`, i.e. the
representative of `θ` modulo `2π` lying in `(-π, π]`. -/
noncomputable def normalizeAngle (θ : ℝ) : ℝ := (θ : Real.Angle).toReal

/-- The local `normalizeToRange` helper of `getDistanceFromSegment`: shift
`a` by multiples of `2π` into a window of width `2π` around `reference`. -/
noncomputable def normalizeToRange (a reference : ℝ) : ℝ :=
  a - 2 * Real.pi * ⌊(a - (reference - Real.pi)) / (2 * Real.pi)⌋

/-- `getDistanceFromSegment` (GameEngine.tsx): distance from a point to a
segment's centerline — clamped point-to-line distance for a straight,
distance to the arc with angular-range containment (falling back to the
nearest endpoint outside the arc's span) for a turn. -/
noncomputable def getDistanceFromSegment (seg : TrackSegment) (pX pY : ℝ) : ℝ :=
  match seg.type with
  | SegKind.STRAIGHT =>
      let p := closestPointOnLine seg.startX seg.startY seg.endX seg.endY pX pY
      dist2 pX pY p.1 p.2
  | ty =>
      let radius : ℝ := (SEGMENT_RADIUS_TURN : ℝ)
      let dir : ℝ := if ty = SegKind.TURN_LEFT then -1 else 1
      let perpAngle := seg.startAngle + Real.pi / 2 * dir
      let cx := seg.startX + Real.cos perpAngle * radius
      let cy := seg.startY + Real.sin perpAngle * radius
      let pointAngle := atan2 (pY - cy) (pX - cx)
      let arcStartAngle := perpAngle + Real.pi
      let arcEndAngle := arcStartAngle + Real.pi / 2 * dir
      let normPointAngle := normalizeToRange pointAngle arcStartAngle
      let normEndAngle := normalizeToRange arcEndAngle arcStartAngle
      let isWithinArc :=
        if dir = -1 then normEndAngle ≤ normPointAngle ∧ normPointAngle ≤ arcStartAngle
        else arcStartAngle ≤ normPointAngle ∧ normPointAngle ≤ normEndAngle
      if isWithinArc then |dist2 pX pY cx cy - radius|
      else min (dist2 pX pY seg.startX seg.startY) (dist2 pX pY seg.endX seg.endY)

/-- `createInitialSegment` (GameEngine.tsx): the synthetic initial
straight, id 0. -/
noncomputable def createInitialSegment : TrackSegment :=
  { id := 0, type := SegKind.STRAIGHT,
    length := (SEGMENT_LENGTH_STRAIGHT : ℝ) * 2, curvature := 0,
    startAngle := -(Real.pi / 2), endAngle := -(Real.pi / 2),
    startX := 0, startY := 200,
    endX := 0, endY := 200 - (SEGMENT_LENGTH_STRAIGHT : ℝ) * 2,
    width := (TRACK_WIDTH_START : ℝ) }

/-- `createSegmentData` (GameEngine.tsx): chain the next segment of the
given kind onto `prevSeg`'s end point/angle. -/
noncomputable def createSegmentData (prevSeg : TrackSegment) (ty : SegKind)
    (calculatedWidth : ℝ) : TrackSegment :=
  let id := prevSeg.id + 1
  let startX := prevSeg.endX
  let startY := prevSeg.endY
  let startAngle := prevSeg.endAngle
  match ty with
  | SegKind.STRAIGHT =>
      let len : ℝ := (SEGMENT_LENGTH_STRAIGHT : ℝ)
      { id := id, type := SegKind.STRAIGHT, length := len, curvature := 0,
        startAngle := startAngle, endAngle := startAngle,
        startX := startX, startY := startY,
        endX := startX + Real.cos startAngle * len,
        endY := startY + Real.sin startAngle * len,
        width := calculatedWidth }
  | ty =>
      let radius : ℝ := (SEGMENT_RADIUS_TURN : ℝ)
      let turnAngle : ℝ := Real.pi / 2
      let direction : ℝ := if ty = SegKind.TURN_LEFT then -1 else 1
      let endAngle := normalizeAngle (startAngle + turnAngle * direction)
      let perpAngle := startAngle + Real.pi / 2 * direction
      let cx := startX + Real.cos perpAngle * radius
      let cy := startY + Real.sin perpAngle * radius
      let ex := cx + Real.cos (endAngle - Real.pi / 2 * direction) * radius
      let ey := cy + Real.sin (endAngle - Real.pi / 2 * direction) * radius
      { id := id, type := ty, length := Real.pi * radius / 2, curvature := 1 / radius,
        startAngle := startAngle, endAngle := endAngle,
        startX := startX, startY := startY,
        endX := ex, endY := ey,
        width := calculatedWidth }

/-- `getSegmentSamplePoints` (GameEngine.tsx): `numSamples + 1` evenly
spaced points along the centerline. -/
noncomputable def getSegmentSamplePoints (seg : TrackSegment) (numSamples : ℕ) :
    List (ℝ × ℝ) :=
  match seg.type with
  | SegKind.STRAIGHT =>
      (List.range (numSamples + 1)).map fun (i : ℕ) =>
        let t : ℝ := (i : ℝ) / (numSamples : ℝ)
        (seg.startX + (seg.endX - seg.startX) * t,
         seg.startY + (seg.endY - seg.startY) * t)
  | ty =>
      let radius : ℝ := (SEGMENT_RADIUS_TURN : ℝ)
      let dir : ℝ := if ty = SegKind.TURN_LEFT then -1 else 1
      let perpAngle := seg.startAngle + Real.pi / 2 * dir
      let cx := seg.startX + Real.cos perpAngle * radius
      let cy := seg.startY + Real.sin perpAngle * radius
      let startA := perpAngle + Real.pi
      let turnAngle := Real.pi / 2 * dir
      (List.range (numSamples + 1)).map fun (i : ℕ) =>
        let t : ℝ := (i : ℝ) / (numSamples : ℝ)
        let angle := startA + turnAngle * t
        (cx + Real.cos angle * radius, cy + Real.sin angle * radius)

/-- `safeDistance` of `isSegmentSafe`:
`TRACK_WIDTH_START + SEGMENT_RADIUS_TURN = 560`. -/
noncomputable def safeDistance : ℝ := (TRACK_WIDTH_START : ℝ) + (SEGMENT_RADIUS_TURN : ℝ)

/-- `isSegmentSafe` (GameEngine.tsx): every one of 13 sample points along
the candidate keeps distance `≥ safeDistance` from every history segment
except the most recent 4. -/
def isSegmentSafe (candidate : TrackSegment) (history : List TrackSegment) : Prop :=
  ∀ p ∈ getSegmentSamplePoints candidate 12,
    ∀ seg ∈ history.take (history.length - 4),
      ¬ (getDistanceFromSegment seg p.1 p.2 < safeDistance)

/-- `getRecentTurnBias` (GameEngine.tsx): left/right balance over the last
`limit` segments. -/
def getRecentTurnBias (history : List TrackSegment) (limit : ℕ) : ℤ :=
  (history.drop (history.length - limit)).foldl
    (fun balance seg =>
      balance + (if seg.type = SegKind.TURN_LEFT then -1 else 0)
              + (if seg.type = SegKind.TURN_RIGHT then 1 else 0)) 0

/-- `getCumulativeAngleChange` (GameEngine.tsx): signed 90°-turn total
over the last `limit` segments. -/
noncomputable def getCumulativeAngleChange (history : List TrackSegment) (limit : ℕ) : ℝ :=
  (history.drop (history.length - limit)).foldl
    (fun total seg =>
      total + (if seg.type = SegKind.TURN_LEFT then -(Real.pi / 2)
               else if seg.type = SegKind.TURN_RIGHT then Real.pi / 2 else 0)) 0

/-- `calculatedWidth` of `generateSegment`. -/
noncomputable def calcWidth (prevSeg : TrackSegment) : ℝ :=
  max (TRACK_WIDTH_END : ℝ)
    ((TRACK_WIDTH_START : ℝ) - ((prevSeg.id : ℝ) + 1) * (TRACK_NARROWING_RATE : ℝ))

/-- The candidate scan of `generateSegment`: synthesize each kind in order
and return the first whose geometry passes `isSegmentSafe`. -/
noncomputable def firstSafe (prevSeg : TrackSegment) (w : ℝ)
    (history : List TrackSegment) : List SegKind → Option TrackSegment
  | [] => none
  | k :: ks =>
      let candidateSeg := createSegmentData prevSeg k w
      if isSegmentSafe candidateSeg history then some candidateSeg
      else firstSafe prevSeg w history ks

/-- `generateSegment` (GameEngine.tsx).  `r` is the `Math.random()` draw
for the preferred turn direction; `history` is `trackRef.current` (in the
engine the previous segment is its last element); a `none` previous
segment reproduces the `!prevSeg` branch. -/
noncomputable def generateSegment (r : ℝ) (history : List TrackSegment) :
    Option TrackSegment → TrackSegment
  | none => createInitialSegment
  | some prevSeg =>
    let calculatedWidth := calcWidth prevSeg
    if prevSeg.id < 4 then createSegmentData prevSeg SegKind.STRAIGHT calculatedWidth
    else
      let cumulativeAngle := getCumulativeAngleChange history 20
      let balance := getRecentTurnBias history 12
      let randomTurn : SegKind := if r > 1/2 then SegKind.TURN_LEFT else SegKind.TURN_RIGHT
      let pf : SegKind × Bool :=
        if cumulativeAngle < -(Real.pi * 1.5) then (SegKind.TURN_RIGHT, true)
        else if cumulativeAngle > Real.pi * 1.5 then (SegKind.TURN_LEFT, true)
        else if balance ≤ -3 then (SegKind.TURN_RIGHT, false)
        else if 3 ≤ balance then (SegKind.TURN_LEFT, false)
        else (randomTurn, false)
      let preferredTurn := pf.1
      let forceStraight := pf.2
      let otherTurn :=
        if preferredTurn = SegKind.TURN_LEFT then SegKind.TURN_RIGHT else SegKind.TURN_LEFT
      let candidates : List SegKind :=
        if forceStraight then [SegKind.STRAIGHT, preferredTurn, otherTurn]
        else if prevSeg.type = SegKind.STRAIGHT then [preferredTurn, SegKind.STRAIGHT, otherTurn]
        else [SegKind.STRAIGHT, preferredTurn, otherTurn]
      match firstSafe prevSeg calculatedWidth history candidates with
      | some s => s
      | none =>
        let fallbackCandidates : List SegKind := [SegKind.STRAIGHT, otherTurn, preferredTurn]
        match firstSafe prevSeg calculatedWidth history fallbackCandidates with
        | some s => s
        | none => createSegmentData prevSeg SegKind.STRAIGHT calculatedWidth

lemma createSegmentData_chain (prev : TrackSegment) (k : SegKind) (w : ℝ) :
    (createSegmentData prev k w).startX = prev.endX ∧
    (createSegmentData prev k w).startY = prev.endY ∧
    (createSegmentData prev k w).startAngle = prev.endAngle ∧
    (createSegmentData prev k w).id = prev.id + 1 := by
  cases k <;> exact ⟨rfl, rfl, rfl, rfl⟩

lemma firstSafe_shape (prev : TrackSegment) (w : ℝ) (hist : List TrackSegment) :
    ∀ ks s, firstSafe prev w hist ks = some s → ∃ k, s = createSegmentData prev k w := by
  intro ks
  induction ks with
  | nil => intro s h; simp [firstSafe] at h
  | cons k ks ih =>
      intro s h
      simp only [firstSafe] at h
      split at h
      · exact ⟨k, (Option.some_injective _ h).symm⟩
      · exact ih s h

lemma matchFirstSafe_shape (prev : TrackSegment) (w : ℝ) (hist : List TrackSegment)
    (cands fallback : List SegKind) :
    ∃ k, (match firstSafe prev w hist cands with
          | some s => s
          | none =>
            match firstSafe prev w hist fallback with
            | some s => s
            | none => createSegmentData prev SegKind.STRAIGHT w) = createSegmentData prev k w := by
  rcases h1 : firstSafe prev w hist cands with _ | s
  · rcases h2 : firstSafe prev w hist fallback with _ | s
    · exact ⟨SegKind.STRAIGHT, by simp [h1, h2]⟩
    · obtain ⟨k, hk⟩ := firstSafe_shape prev w hist fallback s h2
      exact ⟨k, by simp [h1, h2, hk]⟩
  · obtain ⟨k, hk⟩ := firstSafe_shape prev w hist cands s h1
    exact ⟨k, by simp [h1, hk]⟩

lemma generateSegment_some_shape (r : ℝ) (hist : List TrackSegment) (prev : TrackSegment) :
    ∃ k, generateSegment r hist (some prev) = createSegmentData prev k (calcWidth prev) := by
  simp only [generateSegment]
  split
  · exact ⟨SegKind.STRAIGHT, rfl⟩
  · exact matchFirstSafe_shape prev (calcWidth prev) hist _ _

/-- The chain relation between consecutive segments: geometric continuity
plus id succession. -/
def chainRel (s t : TrackSegment) : Prop :=
  t.startX = s.endX ∧ t.startY = s.endY ∧ t.startAngle = s.endAngle ∧ t.id = s.id + 1

/-- One append of the engine's track-building loops (`fillInitialBuffer`
and the generation-ahead loop): `track.push(generateSegment(last))`. -/
noncomputable def extendTrack (track : List TrackSegment) (r : ℝ) : List TrackSegment :=
  track ++ [generateSegment r track track.getLast?]

/-- The track built by the engine: the synthetic initial straight followed
by one generator append per random draw. -/
noncomputable def buildTrack (rs : List ℝ) : List TrackSegment :=
  rs.foldl extendTrack [createInitialSegment]

lemma chainRel_extend (track : List TrackSegment) (r : ℝ) (x : TrackSegment)
    (hx : track.getLast? = some x) :
    chainRel x (generateSegment r track track.getLast?) := by
  rw [hx]
  obtain ⟨k, hk⟩ := generateSegment_some_shape r track x
  rw [hk]
  obtain ⟨h1, h2, h3, h4⟩ := createSegmentData_chain x k (calcWidth x)
  exact ⟨h1, h2, h3, h4⟩

lemma chain_foldl (rs : List ℝ) :
    ∀ acc : List TrackSegment, acc ≠ [] → List.Chain' chainRel acc →
      (rs.foldl extendTrack acc ≠ [] ∧ List.Chain' chainRel (rs.foldl extendTrack acc)) := by
  induction rs with
  | nil => intro acc hne hch; exact ⟨hne, hch⟩
  | cons r rs ih =>
      intro acc hne hch
      rw [List.foldl_cons]
      refine ih (extendTrack acc r) ?_ ?_
      · unfold extendTrack
        simp
      · unfold extendTrack
        rw [List.chain'_append]
        refine ⟨hch, List.chain'_singleton _, ?_⟩
        intro x hx y hy
        simp only [List.head?_cons, Option.mem_def, Option.some_inj] at hy
        subst hy
        exact chainRel_extend acc r x hx

/-- C8: in any track built by the engine (initial segment plus repeated
generator appends), every pair of consecutive segments is chained:
segment `n`'s end point and end angle equal segment `n+1`'s start point
and start angle, and segment `n+1`'s id is segment `n`'s id plus one. -/
theorem track_chain_invariant (rs : List ℝ) :
    List.Chain' chainRel (buildTrack rs) :=
  (chain_foldl rs [createInitialSegment] (by simp) (List.chain'_singleton _)).2

lemma firstSafe_some_safe (prev : TrackSegment) (w : ℝ) (hist : List TrackSegment) :
    ∀ ks s, firstSafe prev w hist ks = some s → isSegmentSafe s hist := by
  intro ks
  induction ks with
  | nil => intro s h; simp [firstSafe] at h
  | cons k ks ih =>
      intro s h
      simp only [firstSafe] at h
      split at h
      · rename_i hs
        rwa [← Option.some_injective _ h]
      · exact ih s h

lemma matchFirstSafe_safe_or (prev : TrackSegment) (w : ℝ) (hist : List TrackSegment)
    (cands fallback : List SegKind) :
    isSegmentSafe
      (match firstSafe prev w hist cands with
       | some s => s
       | none =>
         match firstSafe prev w hist fallback with
         | some s => s
         | none => createSegmentData prev SegKind.STRAIGHT w) hist ∨
    (match firstSafe prev w hist cands with
     | some s => s
     | none =>
       match firstSafe prev w hist fallback with
       | some s => s
       | none => createSegmentData prev SegKind.STRAIGHT w)
      = createSegmentData prev SegKind.STRAIGHT w := by
  rcases h1 : firstSafe prev w hist cands with _ | s
  · rcases h2 : firstSafe prev w hist fallback with _ | s
    · right; simp [h1, h2]
    · left; simpa [h1, h2] using firstSafe_some_safe prev w hist fallback s h2
  · left; simpa [h1] using firstSafe_some_safe prev w hist cands s h1

/-- C7 (amended): every segment the generator returns either passed the
sampled-distance safety check against the non-adjacent history, or is the
unchecked forced-Straight expression (the terminal fallback, or the
forced-straight spawn corridor for ids < 4). -/
theorem generator_safe_or_forced_straight (r : ℝ) (hist : List TrackSegment)
    (prev : TrackSegment) :
    isSegmentSafe (generateSegment r hist (some prev)) hist ∨
    generateSegment r hist (some prev)
      = createSegmentData prev SegKind.STRAIGHT (calcWidth prev) := by
  simp only [generateSegment]
  split
  · right; rfl
  · exact matchFirstSafe_safe_or prev (calcWidth prev) hist _ _

lemma getSegmentSamplePoints_head (seg : TrackSegment) (n : ℕ) :
    (getSegmentSamplePoints seg n).head? = some (seg.startX, seg.startY) := by
  rcases seg with ⟨id, ty, len, curv, sa, ea, sx, sy, ex, ey, w⟩
  have hall : ∀ f : ℕ → ℝ × ℝ, ((List.range (n + 1)).map f).head? = some (f 0) := by
    intro f
    rw [List.head?_map, List.range_succ_eq_map]
    rfl
  cases ty <;> simp only [getSegmentSamplePoints] <;> rw [hall] <;>
    simp only [Option.some_inj, Prod.mk.injEq]
  · norm_num
  all_goals
    rw [Nat.cast_zero, zero_div, mul_zero, add_zero, Real.cos_add_pi, Real.sin_add_pi]
    constructor <;> ring

lemma firstSafe_none_of_all_unsafe (prev : TrackSegment) (w : ℝ)
    (hist : List TrackSegment)
    (h : ∀ k, ¬ isSegmentSafe (createSegmentData prev k w) hist) :
    ∀ ks, firstSafe prev w hist ks = none := by
  intro ks
  induction ks with
  | nil => rfl
  | cons k ks ih =>
      simp only [firstSafe]
      rw [if_neg (h k)]
      exact ih

/-! The counterexample history for C7: the engine's initial straight, one
generated straight, then four consecutive right-hand 90° turns of radius
300 — a closed loop whose head returns to `(0, -700)`, the end of
segment 1.  Every field below is exactly what `createSegmentData` yields
along this chain (the angles are multiples of `π/2`, so the
trigonometry is exact).  With this history every candidate the generator
synthesizes starts at `(0, -700)`, a point at distance 300 < 560 from
segment 0, so every safety check fails and the unchecked terminal
fallback is returned. -/

noncomputable def cexSeg1 : TrackSegment :=
  ⟨1, SegKind.STRAIGHT, 300, 0, -(Real.pi / 2), -(Real.pi / 2), 0, -400, 0, -700, 259.2⟩

noncomputable def cexSeg2 : TrackSegment :=
  ⟨2, SegKind.TURN_RIGHT, Real.pi * 300 / 2, 1/300, -(Real.pi / 2), 0, 0, -700, 300, -1000, 258.4⟩

noncomputable def cexSeg3 : TrackSegment :=
  ⟨3, SegKind.TURN_RIGHT, Real.pi * 300 / 2, 1/300, 0, Real.pi / 2, 300, -1000, 600, -700, 257.6⟩

noncomputable def cexSeg4 : TrackSegment :=
  ⟨4, SegKind.TURN_RIGHT, Real.pi * 300 / 2, 1/300, Real.pi / 2, Real.pi, 600, -700, 300, -400, 256.8⟩

noncomputable def cexSeg5 : TrackSegment :=
  ⟨5, SegKind.TURN_RIGHT, Real.pi * 300 / 2, 1/300, Real.pi, -(Real.pi / 2), 300, -400, 0, -700, 256⟩

noncomputable def cexHistory : List TrackSegment :=
  [createInitialSegment, cexSeg1, cexSeg2, cexSeg3, cexSeg4, cexSeg5]

lemma cex_dist_seg0 : getDistanceFromSegment createInitialSegment 0 (-700) = 300 := by
  show dist2 0 (-700) (closestPointOnLine _ _ _ _ 0 (-700)).1
      (closestPointOnLine _ _ _ _ 0 (-700)).2 = 300
  unfold closestPointOnLine createInitialSegment dist2
  norm_num [SEGMENT_LENGTH_STRAIGHT]
  rw [show (90000 : ℝ) = 300 ^ 2 by norm_num]
  exact Real.sqrt_sq (by norm_num)

lemma cex_candidates_unsafe (k : SegKind) (w : ℝ) :
    ¬ isSegmentSafe (createSegmentData cexSeg5 k w) cexHistory := by
  intro hsafe
  have hstart : (createSegmentData cexSeg5 k w).startX = 0 ∧
      (createSegmentData cexSeg5 k w).startY = -700 := by
    obtain ⟨h1, h2, _, _⟩ := createSegmentData_chain cexSeg5 k w
    exact ⟨h1, h2⟩
  have hhead : (getSegmentSamplePoints (createSegmentData cexSeg5 k w) 12).head?
      = some ((0 : ℝ), (-700 : ℝ)) := by
    rw [getSegmentSamplePoints_head, hstart.1, hstart.2]
  have hmem : ((0 : ℝ), (-700 : ℝ)) ∈ getSegmentSamplePoints (createSegmentData cexSeg5 k w) 12 :=
    List.mem_of_mem_head? (by rw [hhead]; rfl)
  have hseg0 : createInitialSegment ∈ cexHistory.take (cexHistory.length - 4) := by
    show createInitialSegment ∈ cexHistory.take 2
    simp [cexHistory]
  have := hsafe ((0 : ℝ), (-700 : ℝ)) hmem createInitialSegment hseg0
  apply this
  rw [show (((0 : ℝ), (-700 : ℝ)) : ℝ × ℝ).1 = (0 : ℝ) from rfl,
      show (((0 : ℝ), (-700 : ℝ)) : ℝ × ℝ).2 = (-700 : ℝ) from rfl,
      cex_dist_seg0]
  norm_num [safeDistance, TRACK_WIDTH_START, SEGMENT_RADIUS_TURN]

/-- C7 counterexample: on the concrete looped-back history `cexHistory`
the generator returns the terminal forced-Straight fallback — which is
exactly the straight candidate that has just failed the safety check —
and the returned, appended segment violates the claimed non-overlap
invariant: one of its sampled points lies within
`safeDistance = TRACK_WIDTH_START + SEGMENT_RADIUS_TURN` of a
non-adjacent earlier segment. -/
theorem generator_fallback_violates_invariant :
    generateSegment 0 cexHistory (some cexSeg5)
      = createSegmentData cexSeg5 SegKind.STRAIGHT (calcWidth cexSeg5) ∧
    ¬ isSegmentSafe (generateSegment 0 cexHistory (some cexSeg5)) cexHistory := by
  have hnone := firstSafe_none_of_all_unsafe cexSeg5 (calcWidth cexSeg5) cexHistory
    (fun k => cex_candidates_unsafe k (calcWidth cexSeg5))
  have heq : generateSegment 0 cexHistory (some cexSeg5)
      = createSegmentData cexSeg5 SegKind.STRAIGHT (calcWidth cexSeg5) := by
    simp only [generateSegment]
    rw [if_neg (by norm_num [cexSeg5] : ¬ (cexSeg5.id < 4))]
    simp only [hnone]
  exact ⟨heq, heq ▸ cex_candidates_unsafe SegKind.STRAIGHT (calcWidth cexSeg5)⟩

/-! ## The revive controller (modelled from the spec)

The engine revision under `src/` only respawns the car at the safe
segment's start (`isReviving` effect); the current revision's track
truncation/regeneration — governed by the `REVIVE_STRAIGHT_SEGMENTS`
constant that is present under `src/` — is missing.  The controller below
is modelled from the spec (§2 Revive Controller, Scenario E): truncate the
track ahead of the safe index `max(0, progressIndex - 1)`, append
`REVIVE_STRAIGHT_SEGMENTS` forced-straight segments chained from the kept
tail, and respawn the car at the first new segment's start with
`isCrashed = false` and `speed = BASE_SPEED`; the score state (combo
included) is untouched, as in the in-repo revive effect. -/

/-- `CarState` (types.ts). -/
structure CarState where
  x : ℝ
  y : ℝ
  heading : ℝ
  visualAngle : ℝ
  speed : ℝ
  isDrifting : Bool
  isCrashed : Bool

/-- A chain of `n` forced-straight segments generated from `prev`
(each via `createSegmentData` with the generator's width rule). -/
noncomputable def straightChain (prev : TrackSegment) : ℕ → List TrackSegment
  | 0 => []
  | n + 1 =>
      let c := createSegmentData prev SegKind.STRAIGHT (calcWidth prev)
      c :: straightChain c n

structure ReviveResult where
  track : List TrackSegment
  car : CarState
  score : ScoreG

/-- Modelled from the spec: the Revive Controller. -/
noncomputable def reviveController (track : List TrackSegment) (progressIndex : ℕ)
    (score : ScoreG) : ReviveResult :=
  let safeIndex := progressIndex - 1
  let kept := track.take safeIndex
  let anchor := kept.getLast?.getD createInitialSegment
  let newSegs := straightChain anchor REVIVE_STRAIGHT_SEGMENTS
  let firstNew := newSegs.head?.getD createInitialSegment
  { track := kept ++ newSegs
    car := { x := firstNew.startX, y := firstNew.startY, heading := firstNew.startAngle,
             visualAngle := firstNew.startAngle, speed := (BASE_SPEED : ℝ),
             isDrifting := false, isCrashed := false }
    score := score }

lemma straightChain_length (prev : TrackSegment) :
    ∀ n, (straightChain prev n).length = n := by
  intro n
  induction n generalizing prev with
  | zero => rfl
  | succ n ih => simp [straightChain, ih]

lemma straightChain_all_straight (prev : TrackSegment) :
    ∀ n, ∀ s ∈ straightChain prev n, s.type = SegKind.STRAIGHT := by
  intro n
  induction n generalizing prev with
  | zero => intro s hs; simp [straightChain] at hs
  | succ n ih =>
      intro s hs
      simp only [straightChain, List.mem_cons] at hs
      rcases hs with h | h
      · subst h; rfl
      · exact ih _ s h

/-- C3: after a revive at progress index `idx` on a chained track, the
resulting track keeps the first `idx - 1` segments and appends exactly
`REVIVE_STRAIGHT_SEGMENTS` forced-straight segments; the car respawns
exactly at the first new segment's start point and start angle — which
coincides with the start of the original segment at the safe index
`idx - 1` — with `isCrashed = false` and `speed = BASE_SPEED`, and the
combo is unchanged. -/
theorem revive_respawn (track : List TrackSegment) (idx : ℕ) (score : ScoreG)
    (h2 : 2 ≤ idx) (hlt : idx < track.length)
    (hchain : List.Chain' chainRel track) :
    (reviveController track idx score).track.length = (idx - 1) + REVIVE_STRAIGHT_SEGMENTS ∧
    (∀ s ∈ (reviveController track idx score).track.drop (idx - 1),
        s.type = SegKind.STRAIGHT) ∧
    (reviveController track idx score).car.x
      = (track.getD (idx - 1) createInitialSegment).startX ∧
    (reviveController track idx score).car.y
      = (track.getD (idx - 1) createInitialSegment).startY ∧
    (reviveController track idx score).car.heading
      = (track.getD (idx - 1) createInitialSegment).startAngle ∧
    (reviveController track idx score).car.isCrashed = false ∧
    (reviveController track idx score).car.speed = (BASE_SPEED : ℝ) ∧
    (reviveController track idx score).score.combo = score.combo := by
  have hkeptlen : (track.take (idx - 1)).length = idx - 1 := by
    rw [List.length_take]
    omega
  -- the anchor is the original segment at index idx - 2
  have hanchor : (track.take (idx - 1)).getLast?.getD createInitialSegment
      = track.getD (idx - 2) createInitialSegment := by
    rw [List.getLast?_eq_getElem?, hkeptlen, List.getElem?_take,
        if_pos (by omega : idx - 1 - 1 < idx - 1), List.getD_eq_getElem?_getD,
        show idx - 1 - 1 = idx - 2 by omega]
  -- the straight chain is nonempty, and its head starts at the anchor's end
  have hfirst : ∀ prev : TrackSegment,
      ((straightChain prev REVIVE_STRAIGHT_SEGMENTS).head?.getD createInitialSegment).startX
        = prev.endX ∧
      ((straightChain prev REVIVE_STRAIGHT_SEGMENTS).head?.getD createInitialSegment).startY
        = prev.endY ∧
      ((straightChain prev REVIVE_STRAIGHT_SEGMENTS).head?.getD createInitialSegment).startAngle
        = prev.endAngle := by
    intro prev
    show (createSegmentData prev SegKind.STRAIGHT (calcWidth prev)).startX = prev.endX ∧ _ ∧ _
    obtain ⟨ha, hb, hc, _⟩ := createSegmentData_chain prev SegKind.STRAIGHT (calcWidth prev)
    exact ⟨ha, hb, hc⟩
  -- chain link between indices idx - 2 and idx - 1 of the original track
  have hlink : chainRel (track.get ⟨idx - 2, by omega⟩) (track.get ⟨idx - 1, by omega⟩) := by
    have := List.chain'_iff_get.mp hchain (idx - 2) (by omega)
    have heq : idx - 2 + 1 = idx - 1 := by omega
    simpa [heq] using this
  have hgetD2 : track.getD (idx - 2) createInitialSegment = track.get ⟨idx - 2, by omega⟩ := by
    rw [List.getD_eq_getElem?_getD, List.getElem?_eq_getElem (by omega : idx - 2 < track.length)]
    rfl
  have hgetD1 : track.getD (idx - 1) createInitialSegment = track.get ⟨idx - 1, by omega⟩ := by
    rw [List.getD_eq_getElem?_getD, List.getElem?_eq_getElem (by omega : idx - 1 < track.length)]
    rfl
  obtain ⟨hx, hy, ha, _⟩ := hlink
  refine ⟨?_, ?_, ?_, ?_, ?_, rfl, rfl, rfl⟩
  · show ((track.take (idx - 1)) ++ straightChain _ REVIVE_STRAIGHT_SEGMENTS).length = _
    rw [List.length_append, hkeptlen, straightChain_length]
  · intro s hs
    have hdrop : ∀ l1 l2 : List TrackSegment, l1.length = idx - 1 →
        (l1 ++ l2).drop (idx - 1) = l2 := by
      intro l1 l2 h
      rw [← h, List.drop_left]
    have hred : (reviveController track idx score).track
        = track.take (idx - 1) ++ straightChain
            ((track.take (idx - 1)).getLast?.getD createInitialSegment)
            REVIVE_STRAIGHT_SEGMENTS := rfl
    rw [hred, hdrop _ _ hkeptlen] at hs
    exact straightChain_all_straight _ _ s hs
  · show ((straightChain ((track.take (idx - 1)).getLast?.getD createInitialSegment)
        REVIVE_STRAIGHT_SEGMENTS).head?.getD createInitialSegment).startX = _
    rw [(hfirst _).1, hanchor, hgetD2, hgetD1, hx]
  · show ((straightChain ((track.take (idx - 1)).getLast?.getD createInitialSegment)
        REVIVE_STRAIGHT_SEGMENTS).head?.getD createInitialSegment).startY = _
    rw [(hfirst _).2.1, hanchor, hgetD2, hgetD1, hy]
  · show ((straightChain ((track.take (idx - 1)).getLast?.getD createInitialSegment)
        REVIVE_STRAIGHT_SEGMENTS).head?.getD createInitialSegment).startAngle = _
    rw [(hfirst _).2.2, hanchor, hgetD2, hgetD1, ha]

/-- A third straight segment chaining onto `cexSeg1`, for the revive
witness track. -/
noncomputable def wSeg2 : TrackSegment :=
  ⟨2, SegKind.STRAIGHT, 300, 0, -(Real.pi / 2), -(Real.pi / 2), 0, -700, 0, -1000, 258.4⟩

/-- Concrete chained 3-segment track for the `revive_respawn` witness. -/
noncomputable def wTrack3 : List TrackSegment := [createInitialSegment, cexSeg1, wSeg2]

/-- Witness for `revive_respawn` at progress index 2 of `wTrack3`. -/
theorem revive_respawn_witness :
    (2 ≤ 2 ∧ 2 < wTrack3.length ∧ List.Chain' chainRel wTrack3) ∧
    ((reviveController wTrack3 2 freshScore).track.length
        = (2 - 1) + REVIVE_STRAIGHT_SEGMENTS ∧
     (∀ s ∈ (reviveController wTrack3 2 freshScore).track.drop (2 - 1),
        s.type = SegKind.STRAIGHT) ∧
     (reviveController wTrack3 2 freshScore).car.x
        = (wTrack3.getD (2 - 1) createInitialSegment).startX ∧
     (reviveController wTrack3 2 freshScore).car.y
        = (wTrack3.getD (2 - 1) createInitialSegment).startY ∧
     (reviveController wTrack3 2 freshScore).car.heading
        = (wTrack3.getD (2 - 1) createInitialSegment).startAngle ∧
     (reviveController wTrack3 2 freshScore).car.isCrashed = false ∧
     (reviveController wTrack3 2 freshScore).car.speed = (BASE_SPEED : ℝ) ∧
     (reviveController wTrack3 2 freshScore).score.combo = freshScore.combo) := by
  have hchain : List.Chain' chainRel wTrack3 := by
    norm_num [wTrack3, List.chain'_cons, chainRel, createInitialSegment, cexSeg1, wSeg2,
      SEGMENT_LENGTH_STRAIGHT]
  exact ⟨⟨by norm_num, by norm_num [wTrack3], hchain⟩,
    revive_respawn wTrack3 2 freshScore (by norm_num) (by norm_num [wTrack3]) hchain⟩

/-! ## Difficulty-scaled turn generation (modelled from the spec)

The dynamic-curvature/turn-angle generator the spec describes (and whose
constants `SEGMENT_RADIUS_MIN/MAX`, `TIGHT_TURN_*_SCORE`,
`TURN_ANGLE_TIER*` sit in the constants file under `src/`) is absent from
the in-repo engine revisions, which use a fixed radius of 300 and fixed
90° turns.  The draws below are modelled from the spec (§4.1 Difficulty
scaling); `u` arguments are uniform `[0,1)` RNG draws. -/

/-- Modelled from the spec: probability of drawing from the tighter half
of the radius range — 0 below `TIGHT_TURN_START_SCORE`, ramping linearly
to a 60% cap reached at `TIGHT_TURN_FULL_SCORE`. -/
def tightTurnProb (score : ℚ) : ℚ :=
  if score < TIGHT_TURN_START_SCORE then 0
  else min (3/5) ((score - TIGHT_TURN_START_SCORE)
        / (TIGHT_TURN_FULL_SCORE - TIGHT_TURN_START_SCORE) * (3/5))

/-- Modelled from the spec: the radius draw.  Below the tight-turn start
score always the maximum radius; above it, `u1` selects the tighter or
wider half of `[SEGMENT_RADIUS_MIN, SEGMENT_RADIUS_MAX]` and `u2`
positions the draw within that half. -/
def drawTurnRadius (score u1 u2 : ℚ) : ℚ :=
  if score < TIGHT_TURN_START_SCORE then SEGMENT_RADIUS_MAX
  else
    let mid := (SEGMENT_RADIUS_MIN + SEGMENT_RADIUS_MAX) / 2
    if u1 < tightTurnProb score then SEGMENT_RADIUS_MIN + (mid - SEGMENT_RADIUS_MIN) * u2
    else mid + (SEGMENT_RADIUS_MAX - mid) * u2

/-- The score-gated legal turn-angle range in degrees (three tiers). -/
def turnAngleTier (score : ℚ) : ℚ × ℚ :=
  if score < TURN_ANGLE_TIER2_SCORE then (TURN_ANGLE_TIER1_MIN, TURN_ANGLE_TIER1_MAX)
  else if score < TURN_ANGLE_TIER3_SCORE then (TURN_ANGLE_TIER2_MIN, TURN_ANGLE_TIER2_MAX)
  else (TURN_ANGLE_TIER3_MIN, TURN_ANGLE_TIER3_MAX)

/-- Modelled from the spec: the trimodal turn-angle draw in degrees — 70%
mass on the "normal" sub-band 80–100° clipped to the active tier, 20% on
the mild band below it, 10% on the sharp band above it; `u2` positions
the draw within the selected band. -/
def drawTurnAngleDeg (score u1 u2 : ℚ) : ℚ :=
  let lo := (turnAngleTier score).1
  let hi := (turnAngleTier score).2
  let normalLo := max lo 80
  let normalHi := min hi 100
  if u1 < 7/10 then normalLo + (normalHi - normalLo) * u2
  else if u1 < 9/10 then lo + (normalLo - lo) * u2
  else normalHi + (hi - normalHi) * u2

/-- Modelled from the spec: turn-segment synthesis with the
difficulty-scaled draws — turn center offset perpendicular to the heading
(sign by direction), end point/angle by rotating around that center by the
drawn turn angle, `curvature = 1/radius`, `length = turnAngle · radius`. -/
noncomputable def createTurnSegmentSpec (prevSeg : TrackSegment) (ty : SegKind)
    (score u1 u2 u3 u4 : ℚ) (calculatedWidth : ℝ) : TrackSegment :=
  let radius : ℝ := ((drawTurnRadius score u1 u2 : ℚ) : ℝ)
  let turnAngle : ℝ := ((drawTurnAngleDeg score u3 u4 : ℚ) : ℝ) * Real.pi / 180
  let direction : ℝ := if ty = SegKind.TURN_LEFT then -1 else 1
  let startX := prevSeg.endX
  let startY := prevSeg.endY
  let startAngle := prevSeg.endAngle
  let endAngle := normalizeAngle (startAngle + turnAngle * direction)
  let perpAngle := startAngle + Real.pi / 2 * direction
  let cx := startX + Real.cos perpAngle * radius
  let cy := startY + Real.sin perpAngle * radius
  let ex := cx + Real.cos (endAngle - Real.pi / 2 * direction) * radius
  let ey := cy + Real.sin (endAngle - Real.pi / 2 * direction) * radius
  { id := prevSeg.id + 1, type := ty, length := turnAngle * radius,
    curvature := 1 / radius,
    startAngle := startAngle, endAngle := endAngle,
    startX := startX, startY := startY, endX := ex, endY := ey,
    width := calculatedWidth }

lemma drawTurnAngleDeg_tier1_bounds (u1 u2 : ℚ) (hu2a : 0 ≤ u2) (hu2b : u2 < 1) :
    TURN_ANGLE_TIER1_MIN ≤ drawTurnAngleDeg 0 u1 u2 ∧
    drawTurnAngleDeg 0 u1 u2 ≤ TURN_ANGLE_TIER1_MAX := by
  unfold drawTurnAngleDeg turnAngleTier
  norm_num [TURN_ANGLE_TIER2_SCORE, TURN_ANGLE_TIER1_MIN, TURN_ANGLE_TIER1_MAX]
  split
  · constructor <;> nlinarith
  · split
    · constructor <;> nlinarith
    · constructor <;> nlinarith

/-- C4: turn radius and angle are difficulty-scaled random draws from the
current score, with `curvature = 1/radius` and `length = turnAngle ·
radius`; at score 0 (Scenario A: previous segment straight, ending at the
origin with heading 0) the drawn radius is exactly `SEGMENT_RADIUS_MAX`
and the segment's end angle differs from its start angle by the drawn
turn angle, which lies within the tier-1 bound of 75°–90°. -/
theorem turn_draws_difficulty_scaled (prev : TrackSegment) (ty : SegKind)
    (u1 u2 u3 u4 : ℚ) (w : ℝ)
    (hend : prev.endAngle = 0)
    (hu4a : 0 ≤ u4) (hu4b : u4 < 1) :
    drawTurnRadius 0 u1 u2 = SEGMENT_RADIUS_MAX ∧
    TURN_ANGLE_TIER1_MIN ≤ drawTurnAngleDeg 0 u3 u4 ∧
    drawTurnAngleDeg 0 u3 u4 ≤ TURN_ANGLE_TIER1_MAX ∧
    (createTurnSegmentSpec prev ty 0 u1 u2 u3 u4 w).curvature
      = 1 / ((drawTurnRadius 0 u1 u2 : ℚ) : ℝ) ∧
    (createTurnSegmentSpec prev ty 0 u1 u2 u3 u4 w).length
      = ((drawTurnAngleDeg 0 u3 u4 : ℚ) : ℝ) * Real.pi / 180
          * ((drawTurnRadius 0 u1 u2 : ℚ) : ℝ) ∧
    (createTurnSegmentSpec prev ty 0 u1 u2 u3 u4 w).endAngle
        - (createTurnSegmentSpec prev ty 0 u1 u2 u3 u4 w).startAngle
      = (if ty = SegKind.TURN_LEFT then (-1 : ℝ) else 1)
          * (((drawTurnAngleDeg 0 u3 u4 : ℚ) : ℝ) * Real.pi / 180) := by
  obtain ⟨hlo, hhi⟩ := drawTurnAngleDeg_tier1_bounds u3 u4 hu4a hu4b
  have hradius : drawTurnRadius 0 u1 u2 = SEGMENT_RADIUS_MAX := by
    unfold drawTurnRadius
    rw [if_pos]
    unfold TIGHT_TURN_START_SCORE
    norm_num
  set θdeg : ℚ := drawTurnAngleDeg 0 u3 u4 with hθdeg
  have hlo' : (75 : ℝ) ≤ (θdeg : ℝ) := by
    have : (75 : ℚ) ≤ θdeg := by unfold TURN_ANGLE_TIER1_MIN at hlo; exact hlo
    exact_mod_cast this
  have hhi' : (θdeg : ℝ) ≤ 90 := by
    have : θdeg ≤ (90 : ℚ) := by unfold TURN_ANGLE_TIER1_MAX at hhi; exact hhi
    exact_mod_cast this
  have hπ := Real.pi_pos
  have hθrad_pos : 0 < (θdeg : ℝ) * Real.pi / 180 := by positivity
  have hθrad_le : (θdeg : ℝ) * Real.pi / 180 ≤ Real.pi / 2 := by
    nlinarith
  have hnorm : ∀ d : ℝ, d = -1 ∨ d = 1 →
      normalizeAngle (0 + (θdeg : ℝ) * Real.pi / 180 * d)
        = (θdeg : ℝ) * Real.pi / 180 * d := by
    intro d hd
    unfold normalizeAngle
    rw [zero_add, Real.Angle.toReal_coe_eq_self_iff]
    rcases hd with h | h <;> subst h <;> constructor <;> nlinarith
  refine ⟨hradius, hlo, hhi, rfl, rfl, ?_⟩
  show normalizeAngle (prev.endAngle + (θdeg : ℝ) * Real.pi / 180
      * (if ty = SegKind.TURN_LEFT then (-1 : ℝ) else 1)) - prev.endAngle
    = (if ty = SegKind.TURN_LEFT then (-1 : ℝ) else 1) * ((θdeg : ℝ) * Real.pi / 180)
  rw [hend]
  rcases em (ty = SegKind.TURN_LEFT) with h | h
  · rw [if_pos h, hnorm (-1) (Or.inl rfl)]
    ring
  · rw [if_neg h, hnorm 1 (Or.inr rfl)]
    ring

/-- Scenario A's previous segment: a straight ending at the origin with
heading 0. -/
noncomputable def wPrevC4 : TrackSegment :=
  ⟨7, SegKind.STRAIGHT, 300, 0, 0, 0, -300, 0, 0, 0, 250⟩

/-- Witness for `turn_draws_difficulty_scaled` at concrete draws. -/
theorem turn_draws_difficulty_scaled_witness :
    (wPrevC4.endAngle = 0 ∧ (0 : ℚ) ≤ 1/3 ∧ (1/3 : ℚ) < 1) ∧
    (drawTurnRadius 0 (1/4) (1/3) = SEGMENT_RADIUS_MAX ∧
     TURN_ANGLE_TIER1_MIN ≤ drawTurnAngleDeg 0 (1/2) (1/3) ∧
     drawTurnAngleDeg 0 (1/2) (1/3) ≤ TURN_ANGLE_TIER1_MAX ∧
     (createTurnSegmentSpec wPrevC4 SegKind.TURN_RIGHT 0 (1/4) (1/3) (1/2) (1/3) 250).curvature
       = 1 / ((drawTurnRadius 0 (1/4) (1/3) : ℚ) : ℝ) ∧
     (createTurnSegmentSpec wPrevC4 SegKind.TURN_RIGHT 0 (1/4) (1/3) (1/2) (1/3) 250).length
       = ((drawTurnAngleDeg 0 (1/2) (1/3) : ℚ) : ℝ) * Real.pi / 180
           * ((drawTurnRadius 0 (1/4) (1/3) : ℚ) : ℝ) ∧
     (createTurnSegmentSpec wPrevC4 SegKind.TURN_RIGHT 0 (1/4) (1/3) (1/2) (1/3) 250).endAngle
         - (createTurnSegmentSpec wPrevC4 SegKind.TURN_RIGHT 0 (1/4) (1/3) (1/2) (1/3) 250).startAngle
       = (if SegKind.TURN_RIGHT = SegKind.TURN_LEFT then (-1 : ℝ) else 1)
           * (((drawTurnAngleDeg 0 (1/2) (1/3) : ℚ) : ℝ) * Real.pi / 180)) :=
  ⟨⟨rfl, by norm_num, by norm_num⟩,
   turn_draws_difficulty_scaled wPrevC4 SegKind.TURN_RIGHT (1/4) (1/3) (1/2) (1/3) 250
     rfl (by norm_num) (by norm_num)⟩

end StackDrift
